import Mathlib

/-!
# Agent Mail — verification of the spec against the source

Shallow embedding of the core of the `agent-mail` repository:

* the daily send-quota logic of the `POST /api/mailbox/send` handler
  (`src/server.js`),
* the verification-code extractor `extractCodes` (`src/server.js`),
* the webhook poll cycle `pollWebhooks` (`src/server.js`),
* the per-mailbox address matching of `fetchEmails` (the IMAP module),
* the mailbox-creation handlers (`src/server.js`),
* the NaCl-box wrappers `encryptForAgent` / `decrypt` (`src/crypto.js`).

External collaborators (SMTP send, IMAP transport, webhook HTTP calls, the
tweetnacl primitives) are modelled as explicit parameters; fallible calls
return `Except`/`Option`; machine randomness (UUIDs, nonces) is injected as
an argument.  JavaScript `null`/`undefined` fields are `Option`s.
-/

namespace AgentMail

/-! ## Quota Tracker — the send path of `POST /api/mailbox/send`

The handler (src/server.js lines 344–391) reads the agent's stored quota
fields, computes the effective count for today, rejects with HTTP 429 when
the effective count has reached 10, otherwise awaits the external SMTP
collaborator `sendEmail` and only after that call returns does it persist
the incremented counter.  A thrown SMTP error is caught and surfaced as a
500 without reaching the update statement. -/

/-- The stored per-agent quota fields `sends_today` and `last_send_date`
(`NULL` until the first send is persisted). -/
structure QuotaState where
  sends_today : Nat
  last_send_date : Option String
  deriving Repr, DecidableEq

/-- The effective count for the calendar date `today`:
`const currentSends = (lastSendDate === today) ? sendCount : 0;`. -/
def currentSends (st : QuotaState) (today : String) : Nat :=
  if st.last_send_date = some today then st.sends_today else 0

/-- Outcome of one send request, as seen by the HTTP caller. -/
inductive SendResult where
  /-- HTTP 429 with `resets_at` = `` today ++ "T23:59:59Z" ``. -/
  | quotaExceeded (resets_at : String)
  /-- HTTP 500: the external SMTP send threw. -/
  | smtpFailure
  /-- HTTP 200 with `sends_remaining`. -/
  | success (sends_remaining : Nat)
  deriving Repr, DecidableEq

/-- Result of one run of the send handler: the HTTP-level result, the
quota state left in the database, and whether the external SMTP
collaborator was invoked at all. -/
structure SendOutcome where
  result : SendResult
  state : QuotaState
  smtpCalled : Bool
  deriving Repr, DecidableEq

/-- The quota/send portion of the `POST /api/mailbox/send` handler.
`smtpOk` injects the outcome of the external `sendEmail` call (`true` = it
returned, `false` = it threw).  Mirrors the source order: quota check,
then the SMTP call, then — only on SMTP success — the counter update. -/
def sendEmailHandler (st : QuotaState) (today : String) (smtpOk : Bool) :
    SendOutcome :=
  let cur := currentSends st today
  if 10 ≤ cur then
    ⟨.quotaExceeded (today ++ "T23:59:59Z"), st, false⟩
  else if smtpOk then
    ⟨.success (10 - (cur + 1)), ⟨cur + 1, some today⟩, true⟩
  else
    ⟨.smtpFailure, st, true⟩

end AgentMail

namespace AgentMail

/-- C4: the 10th send of a day succeeds and persists `sends_today = 10`;
the 11th on the same day is rejected with the end-of-day reset boundary
and without invoking the SMTP collaborator; a send on a date different
from the stored `last_send_date` (including unset) succeeds regardless of
the stored count and persists `sends_today = 1` with the new date. -/
theorem quota_day_rollover_and_limit (D : String) :
    (sendEmailHandler ⟨9, some D⟩ D true
      = ⟨.success 0, ⟨10, some D⟩, true⟩) ∧
    (sendEmailHandler ⟨10, some D⟩ D true
      = ⟨.quotaExceeded (D ++ "T23:59:59Z"), ⟨10, some D⟩, false⟩) ∧
    (∀ (st : QuotaState) (D' : String), st.last_send_date ≠ some D' →
      sendEmailHandler st D' true = ⟨.success 9, ⟨1, some D'⟩, true⟩) := by
  refine ⟨?_, ?_, ?_⟩
  · simp [sendEmailHandler, currentSends]
  · simp [sendEmailHandler, currentSends]
  · intro st D' h
    simp [sendEmailHandler, currentSends, h]

/-- Witness for `quota_day_rollover_and_limit` at `D = "2026-10-11"`,
discharging the rollover hypothesis at a state with yesterday's date. -/
theorem quota_day_rollover_and_limit_witness :
    sendEmailHandler ⟨7, some "2026-10-10"⟩ "2026-10-11" true
      = ⟨.success 9, ⟨1, some "2026-10-11"⟩, true⟩ :=
  (quota_day_rollover_and_limit "2026-10-11").2.2
    ⟨7, some "2026-10-10"⟩ "2026-10-11" (by decide)

/-- C10: when the external SMTP send throws, the stored quota state is
left unchanged and the caller receives a failure, never a success —
the counter update runs only after the SMTP call returns. -/
theorem quota_unchanged_on_smtp_failure (st : QuotaState) (today : String) :
    (sendEmailHandler st today false).state = st ∧
    (∀ n, (sendEmailHandler st today false).result ≠ .success n) := by
  unfold sendEmailHandler
  by_cases h : 10 ≤ currentSends st today <;> simp [h]

end AgentMail

namespace AgentMail

/-! ## Code Extractor — `extractCodes` (src/server.js lines 102–120)

The source runs five global regex scans over the text and unions the
first-group captures into a `Set`:

1. `\b(\d{4,8})\b`            — bare digit runs bounded by word boundaries,
2. `code[:\s]+(\w{4,10})` (i) — the literal `code`, separators, a word token,
3. `verification[:\s]+(\w{4,10})` (i),
4. `OTP[:\s]+(\d{4,8})` (i)   — digits only,
5. `pin[:\s]+(\d{4,8})` (i)   — digits only.

JavaScript `\w` is `[A-Za-z0-9_]` and `\b` is a `\w`/non-`\w` transition,
so a match of scan 1 is exactly a maximal `\w`-run that is all digits of
length 4–8.  For scans 2–5 the separator class `[:\s]` is disjoint from
both capture classes, so the greedy quantifiers never backtrack into each
other: a match is the keyword (case-insensitive), a maximal nonempty
separator run, then up to `maxLen` (at least 4) capture-class characters.
Successive matches of one scan are non-overlapping, resuming after the
previous match, and a failed attempt resumes one character later —
`keywordScan` below implements exactly that. -/

/-- JavaScript `\w`: ASCII letters, digits and underscore. -/
def isWordChar (c : Char) : Bool := c.isAlphanum || c = '_'

/-- JavaScript `\s`, restricted to its ASCII members. -/
def isJsSpace (c : Char) : Bool :=
  c = ' ' || c = '\t' || c = '\n' || c = '\r' || c = '\x0b' || c = '\x0c'

/-- The separator class `[:\s]`. -/
def isSepChar (c : Char) : Bool := c = ':' || isJsSpace c

/-- Scan 1 worker.  The fuel starts at the text length, which bounds the
number of steps: every step drops at least one character (`rest'` is a
suffix of `rest`). -/
def bareDigitRunsF : Nat → List Char → List (List Char)
  | 0, _ => []
  | _ + 1, [] => []
  | fuel + 1, c :: rest =>
    if isWordChar c then
      let run := c :: rest.takeWhile isWordChar
      let rest' := rest.dropWhile isWordChar
      (if run.all Char.isDigit && decide (4 ≤ run.length) &&
          decide (run.length ≤ 8) then [run] else []) ++ bareDigitRunsF fuel rest'
    else
      bareDigitRunsF fuel rest

/-- All captures of scan 1, `\b(\d{4,8})\b`: the maximal word-character
runs consisting solely of digits, of length 4 to 8. -/
def bareDigitRuns (l : List Char) : List (List Char) :=
  bareDigitRunsF l.length l

/-- Case-insensitive literal keyword match at the head of the text;
returns the rest of the text on success. -/
def matchKeyword : List Char → List Char → Option (List Char)
  | [], l => some l
  | _ :: _, [] => none
  | k :: ks, c :: cs =>
    if c.toLower = k.toLower then matchKeyword ks cs else none

/-- One anchored attempt of `kw[:\s]+(cls{4,maxLen})` at the head of `l`:
on success returns the capture and the text after the full match. -/
def tryKeywordAt (kw : List Char) (cls : Char → Bool) (maxLen : Nat)
    (l : List Char) : Option (List Char × List Char) :=
  match matchKeyword kw l with
  | none => none
  | some afterKw =>
    if (afterKw.takeWhile isSepChar).isEmpty then none
    else
      let afterSep := afterKw.dropWhile isSepChar
      let cap := (afterSep.takeWhile cls).take maxLen
      if 4 ≤ cap.length then some (cap, afterSep.drop cap.length) else none

/-- Global scan of one keyword pattern, in JavaScript `matchAll`
semantics: leftmost match, resume after the match; on failure resume one
character later.  The fuel starts at the text length, which bounds the
number of steps: every step either advances one character or consumes a
whole match of at least one character. -/
def keywordScan (kw : List Char) (cls : Char → Bool) (maxLen : Nat) :
    Nat → List Char → List (List Char)
  | 0, _ => []
  | _ + 1, [] => []
  | fuel + 1, c :: rest =>
    match tryKeywordAt kw cls maxLen (c :: rest) with
    | some (cap, remainder) => cap :: keywordScan kw cls maxLen fuel remainder
    | none => keywordScan kw cls maxLen fuel rest

/-- The five pattern scans of `extractCodes`, in source order, captures
concatenated. -/
def runPatternScans (cs : List Char) : List (List Char) :=
  bareDigitRuns cs
    ++ keywordScan ("code".data) isWordChar 10 cs.length cs
    ++ keywordScan ("verification".data) isWordChar 10 cs.length cs
    ++ keywordScan ("otp".data) Char.isDigit 8 cs.length cs
    ++ keywordScan ("pin".data) Char.isDigit 8 cs.length cs

/-- Insertion into `new Set(...)`: keep the first occurrence of each string. -/
def dedupeStrings (l : List String) : List String :=
  l.foldl (fun acc s => if s ∈ acc then acc else acc ++ [s]) []

/-- The extractor `extractCodes(text)` (src/server.js lines 102–120).  Here `none` stands for
JavaScript `null`/`undefined`; the source's falsiness guard `if (!text)`
also sends the empty string to `[]`. -/
def extractCodes (text : Option String) : List String :=
  match text with
  | none => []
  | some s =>
    if s.isEmpty then []
    else dedupeStrings ((runPatternScans s.data).map fun l => String.mk l)

theorem dedupe_foldl_nodup (l acc : List String) (h : acc.Nodup) :
    (l.foldl (fun acc s => if s ∈ acc then acc else acc ++ [s]) acc).Nodup := by
  induction l generalizing acc with
  | nil => simpa
  | cons s rest ih =>
    simp only [List.foldl_cons]
    by_cases hs : s ∈ acc
    · rw [if_pos hs]; exact ih acc h
    · rw [if_neg hs]
      refine ih (acc ++ [s]) ?_
      simp only [List.nodup_append, List.nodup_cons, List.nodup_nil]
      exact ⟨h, by simp, by intro a ha hb; simp at hb; subst hb; exact hs ha⟩

theorem dedupeStrings_nodup (l : List String) : (dedupeStrings l).Nodup :=
  dedupe_foldl_nodup l [] List.nodup_nil

end AgentMail

namespace AgentMail

/-- C6: `extractCodes` is a total function of its input (it is a Lean
`def`, hence deterministic and never-raising by construction), returns
the empty collection for `null`/`undefined` (`none`) and for the empty
string, contains the expected capture on the three example inputs, and
never returns a duplicate string. -/
theorem extractCodes_examples_and_nodup :
    extractCodes none = [] ∧
    extractCodes (some ("")) = [] ∧
    ("1234" ∈ extractCodes (some ("Your code is 1234."))) ∧
    ("9876" ∈ extractCodes (some ("Your OTP: 9876"))) ∧
    ("XYZ789" ∈ extractCodes (some ("Verification: XYZ789"))) ∧
    (∀ t, (extractCodes t).Nodup) := by
  refine ⟨rfl, by decide, by decide, by decide, by decide, ?_⟩
  intro t
  match t with
  | none => simp [extractCodes]
  | some s =>
    unfold extractCodes
    by_cases h : s.isEmpty
    · simp [h]
    · simp only [h, if_false]
      exact dedupeStrings_nodup _

end AgentMail

namespace AgentMail

/-! ## Watermark Store & Ingestion Poller — `pollWebhooks`
(src/server.js lines 394–447)

Per poll cycle the source selects all agents with a non-null
`webhook_url` and, for each, inside a per-agent `try`: fetches up to 5
messages (most recent first), filters them against the stored watermark
(`last_email_id`, `last_check`), POSTs one webhook per new message inside
a per-message `try`, and — only when the new-message set is nonempty —
stores `last_email_id := emails[0].id` and `last_check := now`.

The external collaborators are injected: `fetch` models `fetchEmails`
(`Except` for a transport error), `post` models the `axios.post` webhook
call (`false` = timeout / error response / thrown, all caught by the
per-message handler).  Timestamps are naturals; `last_check.getD 0`
models `new Date(agent.last_check || 0)`. -/

/-- A fetched message, as used by the poll loop. -/
structure Email where
  id : String
  from_ : String
  to_ : String
  subject : String
  body : String
  received_at : Nat
  deriving Repr, DecidableEq

/-- The per-agent row fields read and written by `pollWebhooks`. -/
structure Agent where
  id : String
  mailbox_id : String
  webhook_url : Option String
  last_email_id : Option String
  last_check : Option Nat
  deriving Repr, DecidableEq

/-- The new-message filter of the poll loop:
`if (!agent.last_email_id) return true;` then
`email.id !== agent.last_email_id && new Date(email.received_at) > new
Date(agent.last_check || 0)`. -/
def findNewEmails (lastId : Option String) (lastCheck : Option Nat)
    (emails : List Email) : List Email :=
  match lastId with
  | none => emails
  | some lid =>
    emails.filter fun e =>
      decide (e.id ≠ lid) && decide (lastCheck.getD 0 < e.received_at)

/-- One agent's slice of a poll cycle: the updated row and the list of
webhook dispatch attempts (message, outcome of the POST).  A fetch error
is caught by the per-agent handler: no dispatch, row unchanged.  Every
new message is POSTed regardless of the other POSTs' outcomes, and the
watermark update afterwards does not consult those outcomes; when the
new-message set is empty the row is not written. -/
def pollAgent (fetch : Agent → Except String (List Email))
    (post : Agent → Email → Bool) (now : Nat) (a : Agent) :
    Agent × List (Email × Bool) :=
  match fetch a with
  | .error _ => (a, [])
  | .ok [] => (a, [])
  | .ok (e0 :: rest) =>
    let newEmails := findNewEmails a.last_email_id a.last_check (e0 :: rest)
    if newEmails.isEmpty then (a, [])
    else
      ({ a with last_email_id := some e0.id, last_check := some now },
       newEmails.map fun e => (e, post a e))

/-- One whole poll cycle: every agent with a registered webhook is
processed independently. -/
def pollWebhooks (fetch : Agent → Except String (List Email))
    (post : Agent → Email → Bool) (now : Nat) (agents : List Agent) :
    List (Agent × List (Email × Bool)) :=
  (agents.filter fun a => a.webhook_url.isSome).map (pollAgent fetch post now)

end AgentMail

namespace AgentMail

/-- C1: with a stored watermark `last_email_id = M1.id` and
`last_check = t0` set before M2's arrival, a poll cycle whose fetch
returns `[M2, M1]` dispatches exactly one webhook — for M2 — and stores
`last_email_id = M2.id`, `last_check = now`; a second cycle with the
same fetch result dispatches nothing.  The final conjunct is the
new-message-set characterization: with a non-null watermark, a fetched
message is new iff its identifier differs from `last_email_id` and its
received-timestamp is strictly after `last_poll_time`. -/
theorem watermark_dispatch_once_then_idempotent
    (fetch fetch2 : Agent → Except String (List Email))
    (post post2 : Agent → Email → Bool) (now now2 t0 : Nat)
    (a : Agent) (m1 m2 : Email)
    (halid : a.last_email_id = some m1.id)
    (hlc : a.last_check = some t0)
    (harr : t0 < m2.received_at)
    (hid : m2.id ≠ m1.id)
    (hfetch : fetch a = .ok [m2, m1])
    (hm1 : m1.received_at ≤ now)
    (hfetch2 : fetch2 (pollAgent fetch post now a).1 = .ok [m2, m1]) :
    ((pollAgent fetch post now a).2.map Prod.fst = [m2]) ∧
    (pollAgent fetch post now a).1.last_email_id = some m2.id ∧
    (pollAgent fetch post now a).1.last_check = some now ∧
    (pollAgent fetch2 post2 now2 (pollAgent fetch post now a).1).2 = [] ∧
    (∀ (emails : List Email) (lid : String) (lc : Option Nat) (e : Email),
      e ∈ findNewEmails (some lid) lc emails ↔
        e ∈ emails ∧ e.id ≠ lid ∧ lc.getD 0 < e.received_at) := by
  have hstep : pollAgent fetch post now a =
      ({ a with last_email_id := some m2.id, last_check := some now },
       [(m2, post a m2)]) := by
    unfold pollAgent findNewEmails
    rw [hfetch, halid, hlc]
    simp [hid, harr]
  refine ⟨by rw [hstep]; simp, by rw [hstep], by rw [hstep], ?_, ?_⟩
  · rw [hstep] at hfetch2 ⊢
    unfold pollAgent findNewEmails
    rw [hfetch2]
    simp [Nat.not_lt.2 hm1]
  · intro emails lid lc e
    simp [findNewEmails, List.mem_filter, and_assoc]

/-- Witness for `watermark_dispatch_once_then_idempotent` at a concrete
agent, pair of messages and fetch collaborator. -/
theorem watermark_dispatch_once_then_idempotent_witness :
    ((pollAgent (fun _ => .ok [⟨"m2", "s", "r", "sub", "b", 20⟩,
        ⟨"m1", "s", "r", "sub", "b", 5⟩])
      (fun _ _ => true) 30
      ⟨"A", "box", some ("http://h"), some ("m1"), some 10⟩).2.map Prod.fst
      = [⟨"m2", "s", "r", "sub", "b", 20⟩]) :=
  (watermark_dispatch_once_then_idempotent
    (fun _ => .ok [⟨"m2", "s", "r", "sub", "b", 20⟩, ⟨"m1", "s", "r", "sub", "b", 5⟩])
    (fun _ => .ok [⟨"m2", "s", "r", "sub", "b", 20⟩, ⟨"m1", "s", "r", "sub", "b", 5⟩])
    (fun _ _ => true) (fun _ _ => true) 30 60 10
    ⟨"A", "box", some ("http://h"), some ("m1"), some 10⟩
    ⟨"m1", "s", "r", "sub", "b", 5⟩ ⟨"m2", "s", "r", "sub", "b", 20⟩
    rfl rfl (by decide) (by decide) rfl (by decide) rfl).1

/-- C3 counterexample: when the new-message set is empty the source skips
the watermark write entirely.  Agent with `last_email_id = "m1"`,
`last_check = 50`; the fetch returns `[m2 (received 40), m1]`, so nothing
is new (`m2` is older than `last_check`, `m1` is the watermark); the
claim says the row is set to `last_email_id = "m2"`, `last_check = 100`,
but the code leaves both fields untouched. -/
theorem watermark_not_advanced_on_empty_cex :
    ¬ (((pollAgent
          (fun _ => .ok [⟨"m2", "s", "r", "sub", "b", 40⟩,
            ⟨"m1", "s", "r", "sub", "b", 30⟩])
          (fun _ _ => true) 100
          ⟨"A", "box", some ("u"), some ("m1"), some 50⟩).1.last_email_id
            = some ("m2")) ∧
       ((pollAgent
          (fun _ => .ok [⟨"m2", "s", "r", "sub", "b", 40⟩,
            ⟨"m1", "s", "r", "sub", "b", 30⟩])
          (fun _ _ => true) 100
          ⟨"A", "box", some ("u"), some ("m1"), some 50⟩).1.last_check
            = some 100)) := by
  decide

/-- C3 (amended): after dispatch has been attempted for all new messages
— regardless of the individual dispatch outcomes — *provided the
new-message set is nonempty*, the row is set to the most recent fetched
message's identifier and to the current time; when the new-message set is
empty the stored watermark fields are left unchanged. -/
theorem watermark_advance_unconditional_on_outcomes
    (fetch : Agent → Except String (List Email))
    (post : Agent → Email → Bool) (now : Nat) (a : Agent)
    (e0 : Email) (rest : List Email)
    (hfetch : fetch a = .ok (e0 :: rest)) :
    (findNewEmails a.last_email_id a.last_check (e0 :: rest) ≠ [] →
      (pollAgent fetch post now a).1 =
        { a with last_email_id := some e0.id, last_check := some now }) ∧
    (findNewEmails a.last_email_id a.last_check (e0 :: rest) = [] →
      (pollAgent fetch post now a).1 = a) ∧
    (∀ post' : Agent → Email → Bool,
      (pollAgent fetch post' now a).1 = (pollAgent fetch post now a).1) := by
  refine ⟨?_, ?_, ?_⟩
  · intro hne
    unfold pollAgent
    rw [hfetch]
    simp [List.isEmpty_iff, hne]
  · intro hemp
    unfold pollAgent
    rw [hfetch]
    simp [List.isEmpty_iff, hemp]
  · intro post'
    unfold pollAgent
    rw [hfetch]
    by_cases h :
        (findNewEmails a.last_email_id a.last_check (e0 :: rest)).isEmpty <;>
      simp [h]

/-- Witness for `watermark_advance_unconditional_on_outcomes`: a concrete
agent with a nonempty new-message set and an always-failing webhook still
gets its watermark advanced. -/
theorem watermark_advance_unconditional_on_outcomes_witness :
    (pollAgent (fun _ => .ok [⟨"m2", "s", "r", "sub", "b", 20⟩])
      (fun _ _ => false) 30
      ⟨"A", "box", some ("u"), some ("m1"), some 10⟩).1 =
      ⟨"A", "box", some ("u"), some ("m2"), some 30⟩ :=
  (watermark_advance_unconditional_on_outcomes
    (fun _ => .ok [⟨"m2", "s", "r", "sub", "b", 20⟩])
    (fun _ _ => false) 30
    ⟨"A", "box", some ("u"), some ("m1"), some 10⟩
    ⟨"m2", "s", "r", "sub", "b", 20⟩ [] rfl).1 (by decide)

/-- C5: per-agent and per-message failures are isolated.  (1) A cycle over
`[A, B]` produces both agents' slices, each computed by `pollAgent` alone;
(2) B's slice depends only on B's own fetch result and B's own webhook
outcomes — however A's fetch or webhook behaves; (3) for any agent, the
set of attempted dispatches and the updated watermark row are identical
under any two webhook-outcome functions: a failed delivery never
suppresses the remaining dispatch attempts, never raises to the poller
(`pollAgent` is total), and never blocks the watermark write. -/
theorem dispatch_isolation
    (fetch fetch' : Agent → Except String (List Email))
    (post post' : Agent → Email → Bool) (now : Nat) (A B : Agent)
    (hA : A.webhook_url.isSome) (hB : B.webhook_url.isSome)
    (hfB : fetch' B = fetch B) (hpB : ∀ e, post' B e = post B e) :
    (pollWebhooks fetch post now [A, B] =
      [pollAgent fetch post now A, pollAgent fetch post now B]) ∧
    (pollAgent fetch' post' now B = pollAgent fetch post now B) ∧
    (∀ (p1 p2 : Agent → Email → Bool) (a : Agent),
      ((pollAgent fetch p1 now a).2.map Prod.fst =
        (pollAgent fetch p2 now a).2.map Prod.fst) ∧
      (pollAgent fetch p1 now a).1 = (pollAgent fetch p2 now a).1) := by
  refine ⟨?_, ?_, ?_⟩
  · simp [pollWebhooks, List.filter, hA, hB]
  · have hfun : (fun e => (e, post' B e)) = (fun e => (e, post B e)) :=
      funext fun e => by rw [hpB]
    unfold pollAgent
    rw [hfB]
    cases fetch B with
    | error _ => rfl
    | ok emails =>
      cases emails with
      | nil => rfl
      | cons e0 rest => simp only [hfun]
  · intro p1 p2 a
    unfold pollAgent
    cases fetch a with
    | error _ => exact ⟨rfl, rfl⟩
    | ok emails =>
      cases emails with
      | nil => exact ⟨rfl, rfl⟩
      | cons e0 rest =>
        by_cases h :
            (findNewEmails a.last_email_id a.last_check (e0 :: rest)).isEmpty <;>
          simp [h, List.map_map, Function.comp]

/-- Witness for `dispatch_isolation`: concrete two-agent cycle in which
A's webhook always fails and B's always succeeds. -/
theorem dispatch_isolation_witness :
    pollWebhooks (fun _ => .ok [⟨"m9", "s", "r", "sub", "b", 9⟩])
      (fun a _ => a.id = "B") 7
      [⟨"A", "boxa", some ("uA"), none, none⟩,
       ⟨"B", "boxb", some ("uB"), some ("m1"), some 2⟩] =
      [pollAgent (fun _ => .ok [⟨"m9", "s", "r", "sub", "b", 9⟩])
        (fun a _ => a.id = "B") 7 ⟨"A", "boxa", some ("uA"), none, none⟩,
       pollAgent (fun _ => .ok [⟨"m9", "s", "r", "sub", "b", 9⟩])
        (fun a _ => a.id = "B") 7
        ⟨"B", "boxb", some ("uB"), some ("m1"), some 2⟩] :=
  (dispatch_isolation (fun _ => .ok [⟨"m9", "s", "r", "sub", "b", 9⟩])
    (fun _ => .ok [⟨"m9", "s", "r", "sub", "b", 9⟩])
    (fun a _ => a.id = "B") (fun a _ => a.id = "B") 7
    ⟨"A", "boxa", some ("uA"), none, none⟩
    ⟨"B", "boxb", some ("uB"), some ("m1"), some 2⟩
    (by decide) (by decide) rfl (fun _ => rfl)).1

end AgentMail

namespace AgentMail

/-! ## Address matching — `fetchEmails` (src/imap.js)

The IMAP module fetches the shared inbox and keeps a parsed message for
mailbox `mailboxId` iff some entry of `parsed.to.value` has an `address`
whose `toLowerCase()` equals the target `kai+{mailboxId}@kdn.agency`
lowercased.  A parsed address may be absent (`addr.address?.`), in which
case the comparison is false. -/

/-- JavaScript `toLowerCase()` (ASCII letters, as used for email
addresses). -/
def strLower (s : String) : String := String.mk (s.data.map Char.toLower)

/-- A parsed inbound message, as used by the matching step:
`parsed.to.value[*].address` (possibly absent). -/
structure ImapMessage where
  messageId : String
  toAddresses : List (Option String)
  received_at : Nat
  deriving Repr, DecidableEq

/-- The target `` const targetAddress = `kai+${mailboxId}@kdn.agency`; `` -/
def targetAddress (mailboxId : String) : String :=
  "kai+" ++ mailboxId ++ "@kdn.agency"

/-- The comparison `addr.address?.toLowerCase() === targetAddress.toLowerCase()`. -/
def addrMatches (target : String) (addr : Option String) : Bool :=
  match addr with
  | none => false
  | some s => decide (strLower s = strLower target)

/-- The per-message membership test `toAddresses.some(addr => ...)`. -/
def isForMailbox (mailboxId : String) (m : ImapMessage) : Bool :=
  m.toAddresses.any (addrMatches (targetAddress mailboxId))

/-- The kept messages of one fetch for one mailbox. -/
def filterForMailbox (mailboxId : String) (msgs : List ImapMessage) :
    List ImapMessage :=
  msgs.filter (isForMailbox mailboxId)

theorem addrMatches_eq_true (t : String) (a : Option String) :
    addrMatches t a = true ↔ ∃ s, a = some s ∧ strLower s = strLower t := by
  cases a <;> simp [addrMatches]

/-- C8: a fetched message is kept for a mailbox iff one of its recipient
addresses equals the mailbox address under case-insensitive comparison;
concretely, `KAI+X@KDN.AGENCY` matches mailbox `x`, `kai+y@kdn.agency`
does not, and a message matching no mailbox is in no mailbox's result. -/
theorem address_matching_case_insensitive_exact :
    (∀ (mid : String) (msgs : List ImapMessage) (m : ImapMessage),
      m ∈ filterForMailbox mid msgs ↔
        m ∈ msgs ∧ ∃ s, (some s) ∈ m.toAddresses ∧
          strLower s = strLower (targetAddress mid)) ∧
    (isForMailbox ("x") ⟨"i1", [some ("KAI+X@KDN.AGENCY")], 1⟩ = true) ∧
    (isForMailbox ("x") ⟨"i2", [some ("kai+y@kdn.agency")], 1⟩ = false) ∧
    (∀ (mid : String) (msgs : List ImapMessage) (m : ImapMessage),
      isForMailbox mid m = false → m ∉ filterForMailbox mid msgs) := by
  refine ⟨?_, by decide, by decide, ?_⟩
  · intro mid msgs m
    rw [filterForMailbox, List.mem_filter]
    constructor
    · rintro ⟨hm, hf⟩
      rw [isForMailbox, List.any_eq_true] at hf
      obtain ⟨a, ha, hmatch⟩ := hf
      obtain ⟨s, rfl, hs⟩ := (addrMatches_eq_true _ _).1 hmatch
      exact ⟨hm, s, ha, hs⟩
    · rintro ⟨hm, s, hs, heq⟩
      refine ⟨hm, ?_⟩
      rw [isForMailbox, List.any_eq_true]
      exact ⟨some s, hs, (addrMatches_eq_true _ _).2 ⟨s, rfl, heq⟩⟩
  · intro mid msgs m hfalse hmem
    rw [filterForMailbox, List.mem_filter] at hmem
    rw [hfalse] at hmem
    exact Bool.false_ne_true hmem.2

end AgentMail

namespace AgentMail

/-! ## Mailbox creation — `POST /api/mailbox/create` and
`POST /api/mailbox/create-paid` (src/server.js)

Both handlers draw `mailboxId = uuidv4().slice(0, 8)`, set
`` email = `kai+${mailboxId}@kdn.agency` `` and INSERT a row into
`agents`; the table (src/db.js) declares UNIQUE on `id`, `moltbook_id`,
`mailbox_id`, `email` and `api_key`, so an INSERT violating any of them
throws (caught as HTTP 500) and adds no row.  UUIDs and the fresh API key
are injected as arguments; the Moltbook / payment verification results
are injected as the values the handlers branch on. -/

/-- One row of the `agents` table (the columns the creation paths write). -/
structure AgentRow where
  id : String
  moltbook_id : String
  moltbook_name : String
  mailbox_id : String
  email : String
  api_key : String
  deriving Repr, DecidableEq

/-- The address `` `kai+${mailboxId}@kdn.agency` `` — the deterministic derivation of
the mailbox address from the stored mailbox identifier. -/
def mailboxEmail (mailboxId : String) : String :=
  "kai+" ++ mailboxId ++ "@kdn.agency"

/-- INSERT under the table's UNIQUE constraints. -/
def insertAgent (db : List AgentRow) (r : AgentRow) :
    Except String (List AgentRow) :=
  if db.any (fun a =>
      decide (a.id = r.id) || decide (a.moltbook_id = r.moltbook_id) ||
      decide (a.mailbox_id = r.mailbox_id) || decide (a.email = r.email) ||
      decide (a.api_key = r.api_key))
  then .error ("UNIQUE constraint failed")
  else .ok (db ++ [r])

/-- HTTP-level outcome of a creation request. -/
inductive CreateResult where
  | existing (email mailbox_id api_key : String)
  | created (email mailbox_id api_key : String)
  | notConfirmed
  | alreadyUsed
  | dbError (msg : String)
  deriving Repr, DecidableEq

/-- The free-tier `POST /api/mailbox/create` handler after a successful
Moltbook verification: return the existing row for this `moltbook_id` if
there is one, otherwise insert a fresh row with
`mailbox_id = uuidMailbox.slice(0, 8)`. -/
def createMailbox (db : List AgentRow) (moltbookId moltbookName : String)
    (uuidRow uuidMailbox apiKey : String) : CreateResult × List AgentRow :=
  match db.find? (fun a => decide (a.moltbook_id = moltbookId)) with
  | some ex => (.existing ex.email ex.mailbox_id ex.api_key, db)
  | none =>
    let mailboxId := uuidMailbox.take 8
    let email := mailboxEmail mailboxId
    match insertAgent db ⟨uuidRow, moltbookId, moltbookName, mailboxId,
        email, apiKey⟩ with
    | .error e => (.dbError e, db)
    | .ok db' => (.created email mailboxId apiKey, db')

/-- The paid `POST /api/mailbox/create-paid` handler; `verified` and
`used` inject the payment-verification result and the `payments.used`
flag, `moltbook_id` is `` `solana-${reference.slice(0,8)}` ``. -/
def createPaidMailbox (db : List AgentRow) (reference agentName : String)
    (verified used : Bool) (uuidRow uuidMailbox apiKey : String) :
    CreateResult × List AgentRow :=
  if !verified then (.notConfirmed, db)
  else if used then (.alreadyUsed, db)
  else
    let mailboxId := uuidMailbox.take 8
    let email := mailboxEmail mailboxId
    match insertAgent db ⟨uuidRow, "solana-" ++ reference.take 8, agentName,
        mailboxId, email, apiKey⟩ with
    | .error e => (.dbError e, db)
    | .ok db' => (.created email mailboxId apiKey, db')

/-- Every stored agent's address is the deterministic derivation from its
stored mailbox identifier. -/
def EmailsDerived (db : List AgentRow) : Prop :=
  ∀ r ∈ db, r.email = mailboxEmail r.mailbox_id

/-- No two stored agents share a mailbox identifier (the address suffix). -/
def MailboxIdsUnique (db : List AgentRow) : Prop :=
  (db.map (fun r => r.mailbox_id)).Nodup

theorem insertAgent_preserves (db : List AgentRow) (r : AgentRow)
    (db' : List AgentRow) (h : insertAgent db r = .ok db') :
    db' = db ++ [r] ∧ ∀ a ∈ db, a.mailbox_id ≠ r.mailbox_id := by
  rw [insertAgent] at h
  by_cases hany : db.any (fun a =>
      decide (a.id = r.id) || decide (a.moltbook_id = r.moltbook_id) ||
      decide (a.mailbox_id = r.mailbox_id) || decide (a.email = r.email) ||
      decide (a.api_key = r.api_key))
  · rw [if_pos hany] at h; exact absurd h (by simp)
  · rw [if_neg hany] at h
    refine ⟨by injection h with h; exact h.symm, ?_⟩
    intro a ha hcontra
    rw [List.any_eq_true] at hany
    push_neg at hany
    exact hany a ha (by simp [hcontra])

end AgentMail

namespace AgentMail

/-- C9: both creation paths derive the mailbox address deterministically
from the stored per-agent mailbox identifier
(`` email = `kai+${mailbox_id}@kdn.agency` ``), and no mailbox-address
suffix is ever held by two different agents: the table's UNIQUE
constraint makes a colliding INSERT fail without adding a row, so both
invariants are preserved by every free-tier and every paid creation. -/
theorem mailbox_suffix_derived_and_unique
    (db : List AgentRow) (moltbookId moltbookName reference agentName : String)
    (verified used : Bool) (uuidRow uuidMailbox apiKey : String)
    (hder : EmailsDerived db) (huniq : MailboxIdsUnique db) :
    (EmailsDerived
        (createMailbox db moltbookId moltbookName uuidRow uuidMailbox apiKey).2 ∧
      MailboxIdsUnique
        (createMailbox db moltbookId moltbookName uuidRow uuidMailbox apiKey).2) ∧
    (EmailsDerived
        (createPaidMailbox db reference agentName verified used uuidRow
          uuidMailbox apiKey).2 ∧
      MailboxIdsUnique
        (createPaidMailbox db reference agentName verified used uuidRow
          uuidMailbox apiKey).2) := by
  have step : ∀ (i mb mn mid key : String) (db' : List AgentRow),
      insertAgent db ⟨i, mb, mn, mid, mailboxEmail mid, key⟩ = .ok db' →
        EmailsDerived db' ∧ MailboxIdsUnique db' := by
    intro i mb mn mid key db' hins
    have hr : (⟨i, mb, mn, mid, mailboxEmail mid, key⟩ : AgentRow).email =
        mailboxEmail (⟨i, mb, mn, mid, mailboxEmail mid, key⟩ : AgentRow).mailbox_id := rfl
    obtain ⟨rfl, hnomem⟩ :=
      insertAgent_preserves db ⟨i, mb, mn, mid, mailboxEmail mid, key⟩ db' hins
    constructor
    · intro x hx
      rcases List.mem_append.1 hx with hx | hx
      · exact hder x hx
      · rw [List.mem_singleton] at hx; subst hx; exact hr
    · rw [MailboxIdsUnique, List.map_append, List.nodup_append]
      refine ⟨huniq, by simp, ?_⟩
      intro x hx hy
      simp only [List.map_cons, List.map_nil, List.mem_singleton] at hy
      subst hy
      obtain ⟨a, ha, hax⟩ := List.mem_map.1 hx
      exact hnomem a ha hax
  constructor
  · cases hfind : db.find? (fun a => decide (a.moltbook_id = moltbookId)) with
    | some ex =>
      simp only [createMailbox, hfind]
      exact ⟨hder, huniq⟩
    | none =>
      cases hins : insertAgent db ⟨uuidRow, moltbookId, moltbookName,
          uuidMailbox.take 8, mailboxEmail (uuidMailbox.take 8), apiKey⟩ with
      | error e =>
        simp only [createMailbox, hfind, hins]
        exact ⟨hder, huniq⟩
      | ok db' =>
        simp only [createMailbox, hfind, hins]
        exact step _ _ _ _ _ db' hins
  · by_cases hv : verified
    · by_cases hu : used
      · simp only [createPaidMailbox, hv, hu, Bool.not_true, Bool.false_eq_true,
          if_false, if_true]
        exact ⟨hder, huniq⟩
      · cases hins : insertAgent db ⟨uuidRow, "solana-" ++ reference.take 8,
            agentName, uuidMailbox.take 8, mailboxEmail (uuidMailbox.take 8),
            apiKey⟩ with
        | error e =>
          simp only [createPaidMailbox, hv, hu, Bool.not_true,
            Bool.false_eq_true, if_false, hins]
          exact ⟨hder, huniq⟩
        | ok db' =>
          simp only [createPaidMailbox, hv, hu, Bool.not_true,
            Bool.false_eq_true, if_false, hins]
          exact step _ _ _ _ _ db' hins
    · simp only [Bool.not_eq_true] at hv
      simp only [createPaidMailbox, hv, Bool.not_false, if_true]
      exact ⟨hder, huniq⟩

/-- Witness for `mailbox_suffix_derived_and_unique`: a creation on the
empty table. -/
theorem mailbox_suffix_derived_and_unique_witness :
    EmailsDerived
      (createMailbox [] ("mb1") ("Kai") ("row-uuid-1") ("abcdef12-3456")
        ("am_k1")).2 ∧
    MailboxIdsUnique
      (createMailbox [] ("mb1") ("Kai") ("row-uuid-1") ("abcdef12-3456")
        ("am_k1")).2 :=
  (mailbox_suffix_derived_and_unique [] "mb1" "Kai" "ref123" "payer" true
    false "row-uuid-1" "abcdef12-3456" "am_k1"
    (fun r hr => absurd hr (List.not_mem_nil r))
    (by rw [MailboxIdsUnique]; exact List.nodup_nil)).1

end AgentMail

namespace AgentMail

/-! ## Crypto Transform — `encryptForAgent` / `decrypt` (src/crypto.js)

`src/crypto.js` wraps the external `tweetnacl` / `tweetnacl-util`
primitives.  The primitives are external collaborators, so the embedding
abstracts them into a record of operations over an abstract byte type
`Bytes` and an abstract encoded type `B64` (`Uint8Array` and base64
`string` in the source):

* `decodeBase64` is partial (`tweetnacl-util` throws on bad encoding),
* `box` is partial (`nacl.box` throws on a wrong-length key — the source
  wraps both in the same `try`, turning either into an
  `EncryptionError`),
* `boxOpen` returns `none` on authentication failure (`nacl.box.open`
  returns `null`, which the source turns into a thrown decryption
  error — never plaintext),
* `pkOf` is the keypair derivation of `nacl.box.keyPair()` (the public
  key is a function of the secret key).

The nonce of `encryptForAgent` (`nacl.randomBytes(24)` in the source) and
the memoized server keypair (`getServerKeyPair()`) are injected as
arguments. -/

/-- The external NaCl/base64 collaborator operations. -/
structure NaClPrim (Bytes B64 : Type) where
  decodeBase64 : B64 → Option Bytes
  encodeBase64 : Bytes → B64
  decodeUTF8 : String → Bytes
  encodeUTF8 : Bytes → String
  pkOf : Bytes → Bytes
  box : Bytes → Bytes → Bytes → Bytes → Option Bytes
  boxOpen : Bytes → Bytes → Bytes → Bytes → Option Bytes

/-- The return shape of `encryptForAgent`:
`{ encrypted, nonce, serverPublicKey }`, all encoded. -/
structure EncResult (B64 : Type) where
  encrypted : B64
  nonce : B64
  serverPublicKey : B64

/-- Embedding of `encryptForAgent(content, agentPublicKeyBase64)` (src/crypto.js lines
30–48): decode the recipient key, box the UTF-8 content under a fresh
nonce with the server secret key, return the encoded triple; any failure
inside the `try` (bad key encoding, bad key size) becomes a thrown
`EncryptionError`, modelled as `.error`. -/
def encryptForAgent {Bytes B64 : Type} (np : NaClPrim Bytes B64)
    (serverSecret : Bytes) (nonce : Bytes) (content : String)
    (agentPublicKeyBase64 : B64) : Except String (EncResult B64) :=
  match np.decodeBase64 agentPublicKeyBase64 with
  | none => .error ("Failed to encrypt content: bad key encoding")
  | some agentPublicKey =>
    match np.box (np.decodeUTF8 content) nonce agentPublicKey serverSecret with
    | none => .error ("Failed to encrypt content: bad key size")
    | some encrypted =>
      .ok ⟨np.encodeBase64 encrypted, np.encodeBase64 nonce,
        np.encodeBase64 (np.pkOf serverSecret)⟩

/-- Embedding of `decrypt(encryptedBase64, nonceBase64, senderPublicKeyBase64,
secretKey)` (src/crypto.js lines 58–69): decode the three inputs, open
the box, throw when `nacl.box.open` returns `null`, else re-encode the
plaintext. -/
def decrypt {Bytes B64 : Type} (np : NaClPrim Bytes B64)
    (encryptedBase64 nonceBase64 senderPublicKeyBase64 : B64)
    (secretKey : Bytes) : Except String String :=
  match np.decodeBase64 encryptedBase64, np.decodeBase64 nonceBase64,
      np.decodeBase64 senderPublicKeyBase64 with
  | some encrypted, some nonce, some senderPublicKey =>
    match np.boxOpen encrypted nonce senderPublicKey secretKey with
    | none => .error ("Decryption failed - invalid key or corrupted data")
    | some decrypted => .ok (np.encodeUTF8 decrypted)
  | _, _, _ => .error ("invalid base64 encoding")

/-- Contract of `tweetnacl-util`: decoding inverts encoding. -/
def B64RoundTrip {Bytes B64 : Type} (np : NaClPrim Bytes B64) : Prop :=
  ∀ b, np.decodeBase64 (np.encodeBase64 b) = some b

/-- Contract of `tweetnacl-util`: UTF-8 encoding round-trips. -/
def UTF8RoundTrip {Bytes B64 : Type} (np : NaClPrim Bytes B64) : Prop :=
  ∀ s, np.encodeUTF8 (np.decodeUTF8 s) = s

/-- Contract of `nacl.box` / `nacl.box.open`: opening with the matching
secret key and the sender's public key recovers the message. -/
def BoxRoundTrip {Bytes B64 : Type} (np : NaClPrim Bytes B64) : Prop :=
  ∀ m n skR skS c, np.box m n (np.pkOf skR) skS = some c →
    np.boxOpen c n (np.pkOf skS) skR = some m

/-- Contract of `nacl.box.open` (Poly1305 authentication): opening with
any secret key other than the intended recipient's fails definitely. -/
def BoxAuth {Bytes B64 : Type} (np : NaClPrim Bytes B64) : Prop :=
  ∀ m n skR skS c sk', np.box m n (np.pkOf skR) skS = some c →
    sk' ≠ skR → np.boxOpen c n (np.pkOf skS) sk' = none

end AgentMail

namespace AgentMail

/-- C7: if `encryptForAgent` succeeds for the public key derived from
`agentSk`, then `decrypt` of its returned ciphertext, nonce and server
public key with `agentSk` recovers exactly the plaintext, and `decrypt`
with any other secret key yields the definite decryption error — never a
success carrying other data.  The four contract hypotheses are the
documented guarantees of the external `tweetnacl`/`tweetnacl-util`
collaborators. -/
theorem encrypt_decrypt_roundtrip {Bytes B64 : Type} (np : NaClPrim Bytes B64)
    (hb : B64RoundTrip np) (hu : UTF8RoundTrip np) (hrt : BoxRoundTrip np)
    (hauth : BoxAuth np) (serverSk agentSk nonce : Bytes) (P : String)
    (r : EncResult B64)
    (henc : encryptForAgent np serverSk nonce P
      (np.encodeBase64 (np.pkOf agentSk)) = .ok r) :
    decrypt np r.encrypted r.nonce r.serverPublicKey agentSk = .ok P ∧
    (∀ sk', sk' ≠ agentSk →
      decrypt np r.encrypted r.nonce r.serverPublicKey sk' =
        .error ("Decryption failed - invalid key or corrupted data")) := by
  unfold encryptForAgent at henc
  rw [hb] at henc
  have henc2 : (match np.box (np.decodeUTF8 P) nonce (np.pkOf agentSk)
        serverSk with
      | none => (.error ("Failed to encrypt content: bad key size") :
          Except String (EncResult B64))
      | some encrypted =>
        .ok ⟨np.encodeBase64 encrypted, np.encodeBase64 nonce,
          np.encodeBase64 (np.pkOf serverSk)⟩) = .ok r := henc
  cases hbox : np.box (np.decodeUTF8 P) nonce (np.pkOf agentSk) serverSk with
  | none =>
    rw [hbox] at henc2
    exact absurd henc2 (by simp)
  | some enc =>
    rw [hbox] at henc2
    have hr := Except.ok.inj henc2
    subst hr
    constructor
    · simp only [decrypt, hb enc, hb nonce, hb (np.pkOf serverSk),
        hrt _ _ _ _ _ hbox, hu P]
    · intro sk' hne
      simp only [decrypt, hb enc, hb nonce, hb (np.pkOf serverSk),
        hauth _ _ _ _ _ _ hbox hne]

/-- A symbolic instantiation of the NaCl collaborator used to witness the
contract hypotheses: keys, ciphertexts and byte strings are terms, a box
remembers its inputs, and opening checks them. -/
inductive MBytes where
  | raw (s : String)
  | pk (sk : MBytes)
  | cipher (msg nonce pkR skS : MBytes)
  deriving DecidableEq, Repr

/-- The symbolic `NaClPrim` instance. -/
def toyNaCl : NaClPrim MBytes MBytes where
  decodeBase64 := some
  encodeBase64 := id
  decodeUTF8 := .raw
  encodeUTF8 := fun b => match b with | .raw s => s | _ => ""
  pkOf := .pk
  box := fun m n pkR skS => some (.cipher m n pkR skS)
  boxOpen := fun c n pkS skR =>
    match c, pkS with
    | .cipher m n' (.pk skR') skS', .pk skS'' =>
      if n' = n ∧ skR' = skR ∧ skS' = skS'' then some m else none
    | _, _ => none

theorem toyNaCl_b64 : B64RoundTrip toyNaCl := fun _ => rfl

theorem toyNaCl_utf8 : UTF8RoundTrip toyNaCl := fun _ => rfl

theorem toyNaCl_rt : BoxRoundTrip toyNaCl := by
  intro m n skR skS c h
  injection h with h
  subst h
  simp [toyNaCl]

theorem toyNaCl_auth : BoxAuth toyNaCl := by
  intro m n skR skS c sk' h hne
  injection h with h
  subst h
  simp [toyNaCl, Ne.symm hne]

/-- Witness for `encrypt_decrypt_roundtrip` at the symbolic instance. -/
theorem encrypt_decrypt_roundtrip_witness :
    decrypt toyNaCl
      (MBytes.cipher (.raw ("hello")) (.raw ("n")) (.pk (.raw ("agt")))
        (.raw ("srv")))
      (.raw ("n")) (.pk (.raw ("srv"))) (.raw ("agt")) = .ok ("hello") :=
  (encrypt_decrypt_roundtrip toyNaCl toyNaCl_b64 toyNaCl_utf8 toyNaCl_rt
    toyNaCl_auth (.raw ("srv")) (.raw ("agt")) (.raw ("n")) ("hello")
    ⟨MBytes.cipher (.raw ("hello")) (.raw ("n")) (.pk (.raw ("agt")))
      (.raw ("srv")), .raw ("n"), .pk (.raw ("srv"))⟩ rfl).1

end AgentMail

namespace AgentMail

/-! ## Encrypt-on-delivery enrichment (v0.8 poller)

The repository's v0.8 delivery pipeline ("Encrypt on Arrival",
src/crypto.js header) — the server revision with the
`/api/encryption/keypair`, `/api/encryption/key`, `/api/encryption/status`
and `/api/agents/:id/set-pubkey` routes exercised by tests/ and the
per-message encryption step of the poller — is not present under src/;
only its tests and the `src/crypto.js` helper it calls are.  The
enrichment step is therefore modelled from the spec and settled against
`encryptForAgent`, which is translated from src/crypto.js. -/

/-- The body carried by a delivery payload: the raw message body, or the
`encryptForAgent` output. -/
inductive DeliveryBody (B64 : Type) where
  | plain (body : String)
  | encrypted (r : EncResult B64)

/-- A webhook delivery payload after enrichment. -/
structure WebhookPayload (B64 : Type) where
  body : DeliveryBody B64
  codes : List String

/-- Modelled from the spec: the per-message enrichment step of the v0.8
poll-dispatch loop, which is missing from src/ (spec §4.4 step 4) —
"extract codes (4.1) for observability/enrichment; if the agent has a
registered encryption key, encrypt the delivery payload (4.2); dispatch
via 4.5", with an `EncryptionError` surfaced, never skipped, when
encryption was requested.  Code extraction follows the source's
`extractCodes(email.body + ' ' + email.subject)` call. -/
def buildWebhookPayload {Bytes B64 : Type} (np : NaClPrim Bytes B64)
    (serverSecret nonce : Bytes) (agentPublicKey : Option B64)
    (msg : Email) : Except String (WebhookPayload B64) :=
  let codes := extractCodes (some (msg.body ++ " " ++ msg.subject))
  match agentPublicKey with
  | none => .ok ⟨.plain msg.body, codes⟩
  | some pk =>
    match encryptForAgent np serverSecret nonce msg.body pk with
    | .error e => .error e
    | .ok r => .ok ⟨.encrypted r, codes⟩

/-- C2: when the agent has a registered encryption key, the delivery
payload is never the plaintext body: a successful enrichment carries
exactly the `encryptForAgent` output together with the extracted
verification codes, and an encryption failure surfaces as an error
instead of a plaintext dispatch. -/
theorem encryption_never_skipped_when_requested {Bytes B64 : Type}
    (np : NaClPrim Bytes B64) (serverSecret nonce : Bytes) (pk : B64)
    (msg : Email) (r : EncResult B64) (e : String) :
    (∀ body codes,
      buildWebhookPayload np serverSecret nonce (some pk) msg ≠
        .ok ⟨.plain body, codes⟩) ∧
    (encryptForAgent np serverSecret nonce msg.body pk = .ok r →
      buildWebhookPayload np serverSecret nonce (some pk) msg =
        .ok ⟨.encrypted r,
          extractCodes (some (msg.body ++ " " ++ msg.subject))⟩) ∧
    (encryptForAgent np serverSecret nonce msg.body pk = .error e →
      buildWebhookPayload np serverSecret nonce (some pk) msg = .error e) := by
  refine ⟨?_, ?_, ?_⟩
  · intro body codes hcontra
    simp only [buildWebhookPayload] at hcontra
    cases henc : encryptForAgent np serverSecret nonce msg.body pk with
    | error e' => rw [henc] at hcontra; exact absurd hcontra (by simp)
    | ok r' =>
      rw [henc] at hcontra
      have := Except.ok.inj hcontra
      exact absurd (congrArg WebhookPayload.body this) (by simp)
  · intro h
    simp only [buildWebhookPayload, h]
  · intro h
    simp only [buildWebhookPayload, h]

/-- Witness for `encryption_never_skipped_when_requested` at the symbolic
NaCl instance and a concrete message. -/
theorem encryption_never_skipped_when_requested_witness :
    buildWebhookPayload toyNaCl (MBytes.raw ("srv")) (.raw ("n"))
      (some (MBytes.pk (.raw ("agt")))) ⟨"m1", "s", "rcpt", "s2", "b", 5⟩ =
      .ok ⟨.encrypted ⟨MBytes.cipher (.raw ("b")) (.raw ("n"))
          (.pk (.raw ("agt"))) (.raw ("srv")), .raw ("n"),
          .pk (.raw ("srv"))⟩,
        extractCodes (some (("b") ++ " " ++ ("s2")))⟩ :=
  ((encryption_never_skipped_when_requested toyNaCl (.raw ("srv"))
    (.raw ("n")) (MBytes.pk (.raw ("agt"))) ⟨"m1", "s", "rcpt", "s2", "b", 5⟩
    ⟨MBytes.cipher (.raw ("b")) (.raw ("n")) (.pk (.raw ("agt")))
      (.raw ("srv")), .raw ("n"), .pk (.raw ("srv"))⟩ ("e")).2.1) rfl

end AgentMail

namespace AgentMail

/-- Witness for `address_matching_case_insensitive_exact`: a message
addressed to a different mailbox is dropped from mailbox `x`'s result. -/
theorem address_matching_case_insensitive_exact_witness :
    (⟨"i3", [some ("kai+z@kdn.agency")], 1⟩ : ImapMessage) ∉
      filterForMailbox ("x") [⟨"i3", [some ("kai+z@kdn.agency")], 1⟩] :=
  address_matching_case_insensitive_exact.2.2.2 "x"
    [⟨"i3", [some ("kai+z@kdn.agency")], 1⟩]
    ⟨"i3", [some ("kai+z@kdn.agency")], 1⟩ (by decide)

/-- Witness for `quota_unchanged_on_smtp_failure` at a concrete state. -/
theorem quota_unchanged_on_smtp_failure_witness :
    (sendEmailHandler ⟨3, some "2026-10-11"⟩ "2026-10-11" false).state =
      ⟨3, some "2026-10-11"⟩ :=
  (quota_unchanged_on_smtp_failure ⟨3, some "2026-10-11"⟩ "2026-10-11").1

end AgentMail
